import Mathlib

set_option autoImplicit false

/-!
Shallow embedding of the Training-Extensions detection adapters:
 * `CustomMaskRCNN.load_state_dict_pre_hook`
   (src/otx/mpa/modules/models/detectors/custom_maskrcnn_detector.py)
 * `OpenVINODetectionTask` and its helpers
   (src/otx/algorithms/detection/adapters/openvino/task.py)
-/

namespace TrainingExt

/-- A parameter tensor is modelled as its list of rows; the hook only ever
copies whole rows, so row contents stay opaque (`α`). -/
abbrev Tensor (α : Type) := List α

/-- A state dict: a Python `dict` from parameter names to tensors,
modelled as an association list with unique keys looked up front-to-back. -/
abbrev StateDict (α : Type) := List (String × Tensor α)

/-- `d[k]` lookup of a Python dict. -/
def StateDict.find? {α : Type} : StateDict α → String → Option (Tensor α)
  | [], _ => none
  | (k', v) :: rest, k => if k' = k then some v else StateDict.find? rest k

/-- `d[k] = v` assignment of a Python dict: replaces the entry when the key is
present, appends it otherwise. -/
def StateDict.set {α : Type} : StateDict α → String → Tensor α → StateDict α
  | [], k, v => [(k, v)]
  | (k', v') :: rest, k, v =>
    if k' = k then (k', v) :: rest else (k', v') :: StateDict.set rest k v

/-- `dst[m*stride : (m+1)*stride].copy_(src[c*stride : (c+1)*stride])`:
the m-th row block of `dst` replaced by the c-th row block of `src`.
Python slices clamp at the ends; for in-range indices the shape is kept. -/
def copyBlock {α : Type} (dst : Tensor α) (m stride : Nat) (src : Tensor α) (c : Nat) :
    Tensor α :=
  dst.take (m * stride) ++ (src.drop (c * stride)).take stride ++ dst.drop ((m + 1) * stride)

/-- `t[m*stride : (m+1)*stride]`: the m-th row block of a tensor. -/
def block {α : Type} (t : Tensor α) (m stride : Nat) : Tensor α :=
  (t.drop (m * stride)).take stride

/-- The loop `for m, c in enumerate(model2chkpt): if c >= 0: ...copy_(...)` of
`load_state_dict_pre_hook`, with `m` starting at the given index. -/
def mixLoop {α : Type} (stride : Nat) (chkptParam : Tensor α) :
    Nat → List Int → Tensor α → Tensor α
  | _, [], acc => acc
  | m, c :: rest, acc =>
    mixLoop stride chkptParam (m + 1) rest
      (if 0 ≤ c then copyBlock acc m stride chkptParam c.toNat else acc)

/-- Mixing of one class-sensitive parameter in `load_state_dict_pre_hook`:
a clone of the model's parameter receives the matched checkpoint row blocks,
then, when the parameter has extra rows (`model_param.shape[0] >
len(model_classes * stride)`), the background block. -/
def mixParam {α : Type} (stride nModel nChkpt : Nat) (model2chkpt : List Int)
    (modelParam chkptParam : Tensor α) : Tensor α :=
  let p := mixLoop stride chkptParam 0 model2chkpt modelParam
  if nModel * stride < p.length then copyBlock p nModel stride chkptParam nChkpt else p

/-- The `param_strides` table of `CustomMaskRCNN.load_state_dict_pre_hook`. -/
def param_strides : List (String × Nat) :=
  [("roi_head.bbox_head.fc_cls.weight", 1),
   ("roi_head.bbox_head.fc_cls.bias", 1),
   ("roi_head.bbox_head.fc_reg.weight", 4),
   ("roi_head.bbox_head.fc_reg.bias", 4)]

/-- One iteration of the `for model_name, stride in param_strides.items()` loop
of `load_state_dict_pre_hook`: skip when either dict misses the parameter,
otherwise replace the checkpoint entry by the mixed weights. -/
def hookStep {α : Type} (modelDict : StateDict α) (nModel nChkpt : Nat)
    (model2chkpt : List Int) (pfx : String) (cd : StateDict α) (ps : String × Nat) :
    StateDict α :=
  match modelDict.find? ps.1, cd.find? (pfx ++ ps.1) with
  | some modelParam, some chkptParam =>
    cd.set (pfx ++ ps.1) (mixParam ps.2 nModel nChkpt model2chkpt modelParam chkptParam)
  | _, _ => cd

/-- `CustomMaskRCNN.load_state_dict_pre_hook`: rewrites the checkpoint dict in
place before weight loading.  `mapClassNames` abstracts `map_class_names`
(`otx.mpa.modules.utils.task_adapt`, outside src/): the hook uses only the
index list it returns. -/
def load_state_dict_pre_hook {α : Type}
    (mapClassNames : List String → List String → List Int)
    (modelDict : StateDict α) (model_classes chkpt_classes : List String)
    (chkptDict : StateDict α) (pfx : String) : StateDict α :=
  param_strides.foldl
    (hookStep modelDict model_classes.length chkpt_classes.length
      (mapClassNames model_classes chkpt_classes) pfx)
    chkptDict

theorem StateDict.find_set_self {α : Type} (d : StateDict α) (k : String) (v : Tensor α) :
    (d.set k v).find? k = some v := by
  induction d with
  | nil => simp [StateDict.set, StateDict.find?]
  | cons hd tl ih =>
    obtain ⟨k', v'⟩ := hd
    by_cases h : k' = k
    · simp [StateDict.set, StateDict.find?, h]
    · simp [StateDict.set, StateDict.find?, h, ih]

theorem StateDict.find_set_ne {α : Type} (d : StateDict α) (k k' : String) (v : Tensor α)
    (h : k' ≠ k) : (d.set k v).find? k' = d.find? k' := by
  induction d with
  | nil => simp [StateDict.set, StateDict.find?, Ne.symm h]
  | cons hd tl ih =>
    obtain ⟨k0, v0⟩ := hd
    by_cases h0 : k0 = k
    · subst h0
      simp [StateDict.set, StateDict.find?, h, Ne.symm h]
    · simp [StateDict.set, StateDict.find?, h0, ih]

theorem succ_mul_expand (m stride : Nat) : (m + 1) * stride = m * stride + stride := by
  ring

theorem copyBlock_length {α : Type} (dst src : Tensor α) (m stride c : Nat)
    (hm : (m + 1) * stride ≤ dst.length) (hc : (c + 1) * stride ≤ src.length) :
    (copyBlock dst m stride src c).length = dst.length := by
  rw [succ_mul_expand] at hm hc
  simp only [copyBlock, succ_mul_expand, List.length_append, List.length_take,
    List.length_drop]
  omega

theorem block_copyBlock_self {α : Type} (dst src : Tensor α) (m stride c : Nat)
    (hm : (m + 1) * stride ≤ dst.length) (hc : (c + 1) * stride ≤ src.length) :
    block (copyBlock dst m stride src c) m stride = block src c stride := by
  rw [succ_mul_expand] at hm hc
  have htake : (dst.take (m * stride)).length = m * stride := by
    rw [List.length_take]; omega
  have hmid : ((src.drop (c * stride)).take stride).length = stride := by
    rw [List.length_take, List.length_drop]; omega
  simp only [block, copyBlock, List.append_assoc]
  rw [List.drop_append_eq_append_drop, htake, Nat.sub_self, List.drop_zero,
    List.drop_eq_nil_of_le (le_of_eq htake), List.nil_append,
    List.take_append_eq_append_take, hmid, Nat.sub_self, List.take_zero,
    List.append_nil, List.take_of_length_le (le_of_eq hmid)]

theorem block_copyBlock_ne {α : Type} (dst src : Tensor α) (m m' stride c : Nat)
    (hm : (m + 1) * stride ≤ dst.length) (hc : (c + 1) * stride ≤ src.length)
    (hne : m' ≠ m) :
    block (copyBlock dst m stride src c) m' stride = block dst m' stride := by
  rw [succ_mul_expand] at hm hc
  have htake : (dst.take (m * stride)).length = m * stride := by
    rw [List.length_take]; omega
  have hmid : ((src.drop (c * stride)).take stride).length = stride := by
    rw [List.length_take, List.length_drop]; omega
  rcases Nat.lt_or_ge m' m with hlt | hge
  · -- the block lies inside the untouched front part
    have hfront : m' * stride + stride ≤ m * stride := by
      have h1 : (m' + 1) * stride ≤ m * stride := Nat.mul_le_mul_right _ hlt
      rw [succ_mul_expand] at h1; exact h1
    simp only [block, copyBlock, List.append_assoc]
    rw [List.drop_append_eq_append_drop, htake,
      Nat.sub_eq_zero_of_le (by omega), List.drop_zero,
      List.take_append_eq_append_take]
    have hdroplen : ((dst.take (m * stride)).drop (m' * stride)).length =
        m * stride - m' * stride := by
      rw [List.length_drop, htake]
    rw [hdroplen, Nat.sub_eq_zero_of_le (by omega), List.take_zero, List.append_nil,
      List.take_drop, List.take_take, Nat.min_eq_left (by omega)]
    rw [List.take_drop]
  · -- the block lies inside the untouched tail part
    have hge2 : m + 1 ≤ m' := by omega
    have hge' : m * stride + stride ≤ m' * stride := by
      have h1 : (m + 1) * stride ≤ m' * stride := Nat.mul_le_mul_right _ hge2
      rw [succ_mul_expand] at h1; exact h1
    simp only [block, copyBlock, List.append_assoc]
    rw [List.drop_append_eq_append_drop,
      List.drop_eq_nil_of_le (by rw [htake]; omega), List.nil_append, htake,
      List.drop_append_eq_append_drop,
      List.drop_eq_nil_of_le (by rw [hmid]; omega), List.nil_append, hmid,
      List.drop_drop]
    have harith : (m + 1) * stride + (m' * stride - m * stride - stride) =
        m' * stride := by rw [succ_mul_expand]; omega
    rw [harith]

theorem mixLoop_length {α : Type} (stride : Nat) (cp : Tensor α) (ms : List Int) :
    ∀ (i : Nat) (acc : Tensor α),
    (i + ms.length) * stride ≤ acc.length →
    (∀ c ∈ ms, 0 ≤ c → (c.toNat + 1) * stride ≤ cp.length) →
    (mixLoop stride cp i ms acc).length = acc.length := by
  induction ms with
  | nil => intro i acc _ _; rfl
  | cons c0 rest ih =>
    intro i acc hacc hcs
    simp only [List.length_cons] at hacc
    have hstep : ((i + 1) + rest.length) * stride ≤ acc.length := by
      have h1 : ((i + 1) + rest.length) * stride = (i + (rest.length + 1)) * stride := by
        ring
      rw [h1]; exact hacc
    have hi1 : (i + 1) * stride ≤ acc.length :=
      le_trans (Nat.mul_le_mul_right stride (by omega)) hacc
    have hcs' : ∀ c ∈ rest, 0 ≤ c → (c.toNat + 1) * stride ≤ cp.length :=
      fun c hc hc' => hcs c (List.mem_cons_of_mem _ hc) hc'
    by_cases h0 : (0 : Int) ≤ c0
    · have hc0 : (c0.toNat + 1) * stride ≤ cp.length :=
        hcs c0 (List.mem_cons_self _ _) h0
      have hlen' : (copyBlock acc i stride cp c0.toNat).length = acc.length :=
        copyBlock_length acc cp i stride c0.toNat hi1 hc0
      simp only [mixLoop, if_pos h0]
      rw [ih (i + 1) _ (by rw [hlen']; exact hstep) hcs', hlen']
    · simp only [mixLoop, if_neg h0]
      exact ih (i + 1) acc hstep hcs'

theorem mixLoop_block_lo {α : Type} (stride : Nat) (cp : Tensor α) (ms : List Int) :
    ∀ (i : Nat) (acc : Tensor α) (m' : Nat),
    (i + ms.length) * stride ≤ acc.length →
    (∀ c ∈ ms, 0 ≤ c → (c.toNat + 1) * stride ≤ cp.length) →
    m' < i →
    block (mixLoop stride cp i ms acc) m' stride = block acc m' stride := by
  induction ms with
  | nil => intro i acc m' _ _ _; rfl
  | cons c0 rest ih =>
    intro i acc m' hacc hcs hm'
    simp only [List.length_cons] at hacc
    have hstep : ((i + 1) + rest.length) * stride ≤ acc.length := by
      have h1 : ((i + 1) + rest.length) * stride = (i + (rest.length + 1)) * stride := by
        ring
      rw [h1]; exact hacc
    have hi1 : (i + 1) * stride ≤ acc.length :=
      le_trans (Nat.mul_le_mul_right stride (by omega)) hacc
    have hcs' : ∀ c ∈ rest, 0 ≤ c → (c.toNat + 1) * stride ≤ cp.length :=
      fun c hc hc' => hcs c (List.mem_cons_of_mem _ hc) hc'
    by_cases h0 : (0 : Int) ≤ c0
    · have hc0 : (c0.toNat + 1) * stride ≤ cp.length :=
        hcs c0 (List.mem_cons_self _ _) h0
      have hlen' : (copyBlock acc i stride cp c0.toNat).length = acc.length :=
        copyBlock_length acc cp i stride c0.toNat hi1 hc0
      simp only [mixLoop, if_pos h0]
      rw [ih (i + 1) _ m' (by rw [hlen']; exact hstep) hcs' (by omega),
        block_copyBlock_ne acc cp i m' stride c0.toNat hi1 hc0 (by omega)]
    · simp only [mixLoop, if_neg h0]
      exact ih (i + 1) acc m' hstep hcs' (by omega)

theorem mixLoop_block_get {α : Type} (stride : Nat) (cp : Tensor α) (ms : List Int) :
    ∀ (i : Nat) (acc : Tensor α) (j : Nat) (c : Int),
    ms.get? j = some c →
    (i + ms.length) * stride ≤ acc.length →
    (∀ c' ∈ ms, 0 ≤ c' → (c'.toNat + 1) * stride ≤ cp.length) →
    block (mixLoop stride cp i ms acc) (i + j) stride =
      if 0 ≤ c then block cp c.toNat stride else block acc (i + j) stride := by
  induction ms with
  | nil => intro i acc j c hj _ _; simp [List.get?] at hj
  | cons c0 rest ih =>
    intro i acc j c hj hacc hcs
    simp only [List.length_cons] at hacc
    have hstep : ((i + 1) + rest.length) * stride ≤ acc.length := by
      have h1 : ((i + 1) + rest.length) * stride = (i + (rest.length + 1)) * stride := by
        ring
      rw [h1]; exact hacc
    have hi1 : (i + 1) * stride ≤ acc.length :=
      le_trans (Nat.mul_le_mul_right stride (by omega)) hacc
    have hcs' : ∀ c' ∈ rest, 0 ≤ c' → (c'.toNat + 1) * stride ≤ cp.length :=
      fun c' hc hc' => hcs c' (List.mem_cons_of_mem _ hc) hc'
    cases j with
    | zero =>
      have hc0 : c = c0 := Eq.symm (by simpa [List.get?] using hj)
      subst hc0
      by_cases h0 : (0 : Int) ≤ c
      · have hcr : (c.toNat + 1) * stride ≤ cp.length :=
          hcs c (List.mem_cons_self _ _) h0
        have hlen' : (copyBlock acc i stride cp c.toNat).length = acc.length :=
          copyBlock_length acc cp i stride c.toNat hi1 hcr
        simp only [mixLoop, if_pos h0, Nat.add_zero]
        rw [mixLoop_block_lo stride cp rest (i + 1) _ i
            (by rw [hlen']; exact hstep) hcs' (by omega),
          block_copyBlock_self acc cp i stride c.toNat hi1 hcr]
      · simp only [mixLoop, if_neg h0, Nat.add_zero]
        exact mixLoop_block_lo stride cp rest (i + 1) acc i hstep hcs' (by omega)
    | succ j' =>
      have hj' : rest.get? j' = some c := by simpa [List.get?] using hj
      have hidx : i + (j' + 1) = (i + 1) + j' := by omega
      by_cases h0 : (0 : Int) ≤ c0
      · have hc0 : (c0.toNat + 1) * stride ≤ cp.length :=
          hcs c0 (List.mem_cons_self _ _) h0
        have hlen' : (copyBlock acc i stride cp c0.toNat).length = acc.length :=
          copyBlock_length acc cp i stride c0.toNat hi1 hc0
        simp only [mixLoop, if_pos h0]
        rw [hidx, ih (i + 1) _ j' c hj' (by rw [hlen']; exact hstep) hcs']
        by_cases hc : (0 : Int) ≤ c
        · simp [hc]
        · simp only [if_neg hc]
          rw [block_copyBlock_ne acc cp i ((i + 1) + j') stride c0.toNat hi1 hc0
            (by omega)]
      · simp only [mixLoop, if_neg h0]
        rw [hidx, ih (i + 1) acc j' c hj' hstep hcs']

theorem mixLoop_block_hi {α : Type} (stride : Nat) (cp : Tensor α) (ms : List Int) :
    ∀ (i : Nat) (acc : Tensor α) (m' : Nat),
    (i + ms.length) * stride ≤ acc.length →
    (∀ c ∈ ms, 0 ≤ c → (c.toNat + 1) * stride ≤ cp.length) →
    i + ms.length ≤ m' →
    block (mixLoop stride cp i ms acc) m' stride = block acc m' stride := by
  induction ms with
  | nil => intro i acc m' _ _ _; rfl
  | cons c0 rest ih =>
    intro i acc m' hacc hcs hm'
    simp only [List.length_cons] at hacc hm'
    have hstep : ((i + 1) + rest.length) * stride ≤ acc.length := by
      have h1 : ((i + 1) + rest.length) * stride = (i + (rest.length + 1)) * stride := by
        ring
      rw [h1]; exact hacc
    have hi1 : (i + 1) * stride ≤ acc.length :=
      le_trans (Nat.mul_le_mul_right stride (by omega)) hacc
    have hcs' : ∀ c ∈ rest, 0 ≤ c → (c.toNat + 1) * stride ≤ cp.length :=
      fun c hc hc' => hcs c (List.mem_cons_of_mem _ hc) hc'
    by_cases h0 : (0 : Int) ≤ c0
    · have hc0 : (c0.toNat + 1) * stride ≤ cp.length :=
        hcs c0 (List.mem_cons_self _ _) h0
      have hlen' : (copyBlock acc i stride cp c0.toNat).length = acc.length :=
        copyBlock_length acc cp i stride c0.toNat hi1 hc0
      simp only [mixLoop, if_pos h0]
      rw [ih (i + 1) _ m' (by rw [hlen']; exact hstep) hcs' (by omega),
        block_copyBlock_ne acc cp i m' stride c0.toNat hi1 hc0 (by omega)]
    · simp only [mixLoop, if_neg h0]
      exact ih (i + 1) acc m' hstep hcs' (by omega)

theorem string_append_right_inj (p a b : String) (h : p ++ a = p ++ b) : a = b := by
  have h2 := congrArg String.data h
  simp only [String.data_append] at h2
  exact String.ext (List.append_cancel_left h2)

theorem mixParam_length {α : Type} (stride nModel nChkpt : Nat) (m2c : List Int)
    (mp cp : Tensor α)
    (hlen : m2c.length = nModel)
    (hmplen : nModel * stride ≤ mp.length)
    (hcs : ∀ c ∈ m2c, 0 ≤ c → (c.toNat + 1) * stride ≤ cp.length)
    (hmpBG : nModel * stride < mp.length → (nModel + 1) * stride ≤ mp.length)
    (hcpBG : nModel * stride < mp.length → (nChkpt + 1) * stride ≤ cp.length) :
    (mixParam stride nModel nChkpt m2c mp cp).length = mp.length := by
  have hacc : (0 + m2c.length) * stride ≤ mp.length := by
    rw [Nat.zero_add, hlen]; exact hmplen
  have hp := mixLoop_length stride cp m2c 0 mp hacc hcs
  simp only [mixParam]
  by_cases hbg : nModel * stride < (mixLoop stride cp 0 m2c mp).length
  · have hlt : nModel * stride < mp.length := by rw [hp] at hbg; exact hbg
    rw [if_pos hbg, copyBlock_length _ _ _ _ _ (by rw [hp]; exact hmpBG hlt) (hcpBG hlt),
      hp]
  · rw [if_neg hbg]; exact hp

theorem mixParam_block_matched {α : Type} (stride nModel nChkpt : Nat) (m2c : List Int)
    (mp cp : Tensor α) (j : Nat) (c : Int)
    (hj : m2c.get? j = some c) (hc : 0 ≤ c)
    (hlen : m2c.length = nModel)
    (hmplen : nModel * stride ≤ mp.length)
    (hcs : ∀ c' ∈ m2c, 0 ≤ c' → (c'.toNat + 1) * stride ≤ cp.length)
    (hmpBG : nModel * stride < mp.length → (nModel + 1) * stride ≤ mp.length)
    (hcpBG : nModel * stride < mp.length → (nChkpt + 1) * stride ≤ cp.length) :
    block (mixParam stride nModel nChkpt m2c mp cp) j stride = block cp c.toNat stride := by
  have hacc : (0 + m2c.length) * stride ≤ mp.length := by
    rw [Nat.zero_add, hlen]; exact hmplen
  have hp := mixLoop_length stride cp m2c 0 mp hacc hcs
  have hjlt : j < m2c.length := by
    by_contra hcon
    rw [List.get?_eq_none.mpr (by omega)] at hj
    exact Option.noConfusion hj
  have hblk := mixLoop_block_get stride cp m2c 0 mp j c hj hacc hcs
  simp only [Nat.zero_add, if_pos hc] at hblk
  simp only [mixParam]
  by_cases hbg : nModel * stride < (mixLoop stride cp 0 m2c mp).length
  · have hlt : nModel * stride < mp.length := by rw [hp] at hbg; exact hbg
    rw [if_pos hbg,
      block_copyBlock_ne _ _ _ _ _ _ (by rw [hp]; exact hmpBG hlt) (hcpBG hlt)
        (by omega)]
    exact hblk
  · rw [if_neg hbg]; exact hblk

theorem mixParam_block_unmatched {α : Type} (stride nModel nChkpt : Nat) (m2c : List Int)
    (mp cp : Tensor α) (j : Nat) (c : Int)
    (hj : m2c.get? j = some c) (hc : c < 0)
    (hlen : m2c.length = nModel)
    (hmplen : nModel * stride ≤ mp.length)
    (hcs : ∀ c' ∈ m2c, 0 ≤ c' → (c'.toNat + 1) * stride ≤ cp.length)
    (hmpBG : nModel * stride < mp.length → (nModel + 1) * stride ≤ mp.length)
    (hcpBG : nModel * stride < mp.length → (nChkpt + 1) * stride ≤ cp.length) :
    block (mixParam stride nModel nChkpt m2c mp cp) j stride = block mp j stride := by
  have hacc : (0 + m2c.length) * stride ≤ mp.length := by
    rw [Nat.zero_add, hlen]; exact hmplen
  have hp := mixLoop_length stride cp m2c 0 mp hacc hcs
  have hjlt : j < m2c.length := by
    by_contra hcon
    rw [List.get?_eq_none.mpr (by omega)] at hj
    exact Option.noConfusion hj
  have hblk := mixLoop_block_get stride cp m2c 0 mp j c hj hacc hcs
  simp only [Nat.zero_add, if_neg (by omega : ¬((0:Int) ≤ c))] at hblk
  simp only [mixParam]
  by_cases hbg : nModel * stride < (mixLoop stride cp 0 m2c mp).length
  · have hlt : nModel * stride < mp.length := by rw [hp] at hbg; exact hbg
    rw [if_pos hbg,
      block_copyBlock_ne _ _ _ _ _ _ (by rw [hp]; exact hmpBG hlt) (hcpBG hlt)
        (by omega)]
    exact hblk
  · rw [if_neg hbg]; exact hblk

theorem mixParam_block_bg {α : Type} (stride nModel nChkpt : Nat) (m2c : List Int)
    (mp cp : Tensor α)
    (hlen : m2c.length = nModel)
    (hmplen : nModel * stride ≤ mp.length)
    (hcs : ∀ c' ∈ m2c, 0 ≤ c' → (c'.toNat + 1) * stride ≤ cp.length)
    (hmpBG : nModel * stride < mp.length → (nModel + 1) * stride ≤ mp.length)
    (hcpBG : nModel * stride < mp.length → (nChkpt + 1) * stride ≤ cp.length)
    (hlt : nModel * stride < mp.length) :
    block (mixParam stride nModel nChkpt m2c mp cp) nModel stride =
      block cp nChkpt stride := by
  have hacc : (0 + m2c.length) * stride ≤ mp.length := by
    rw [Nat.zero_add, hlen]; exact hmplen
  have hp := mixLoop_length stride cp m2c 0 mp hacc hcs
  simp only [mixParam]
  rw [if_pos (by rw [hp]; exact hlt),
    block_copyBlock_self _ _ _ _ _ (by rw [hp]; exact hmpBG hlt) (hcpBG hlt)]

theorem hookStep_find_ne {α : Type} (modelDict : StateDict α) (nM nC : Nat)
    (m2c : List Int) (pfx : String) (cd : StateDict α) (ps : String × Nat) (k : String)
    (h : ¬(k = pfx ++ ps.1 ∧ modelDict.find? ps.1 ≠ none ∧ cd.find? k ≠ none)) :
    (hookStep modelDict nM nC m2c pfx cd ps).find? k = cd.find? k := by
  unfold hookStep
  split
  · next modelParam chkptParam hmd hcd =>
    by_cases hk : k = pfx ++ ps.1
    · exact absurd ⟨hk, by rw [hmd]; simp, by rw [hk, hcd]; simp⟩ h
    · exact StateDict.find_set_ne cd (pfx ++ ps.1) k _ hk
  · rfl

theorem foldl_hookStep_unchanged {α : Type} (modelDict : StateDict α) (nM nC : Nat)
    (m2c : List Int) (pfx : String) (k : String) (list : List (String × Nat)) :
    ∀ cd : StateDict α,
    (∀ ps ∈ list, ¬(k = pfx ++ ps.1 ∧ modelDict.find? ps.1 ≠ none ∧ cd.find? k ≠ none)) →
    (list.foldl (hookStep modelDict nM nC m2c pfx) cd).find? k = cd.find? k := by
  induction list with
  | nil => intro cd _; rfl
  | cons p rest ih =>
    intro cd hcond
    simp only [List.foldl_cons]
    have hstep := hookStep_find_ne modelDict nM nC m2c pfx cd p k
      (hcond p (List.mem_cons_self _ _))
    rw [ih _ (fun ps hps hcontra =>
      hcond ps (List.mem_cons_of_mem _ hps)
        ⟨hcontra.1, hcontra.2.1, by rw [← hstep]; exact hcontra.2.2⟩), hstep]

/-- C1: Weight-remapping across class sets.  For every pair of state dicts and
class lists, `CustomMaskRCNN.load_state_dict_pre_hook` rewrites each parameter
listed in `param_strides` that is present in both dicts so that: every model
class index matched by `map_class_names` to a checkpoint class index `c ≥ 0`
gets its row block from the checkpoint's block `c`; unmatched model classes
keep the model's own rows; when the parameter has more than
`len(model_classes) * stride` rows, the background block at index
`len(model_classes)` is copied from the checkpoint block at
`len(chkpt_classes)`; and parameters absent from either dict or not listed in
`param_strides` are left unchanged. -/
theorem C1_weight_remapping {α : Type}
    (mapClassNames : List String → List String → List Int)
    (modelDict chkptDict : StateDict α)
    (model_classes chkpt_classes : List String) (pfx : String)
    (name : String) (stride : Nat) (mp cp : Tensor α)
    (hps : (name, stride) ∈ param_strides)
    (hmp : modelDict.find? name = some mp)
    (hcp : chkptDict.find? (pfx ++ name) = some cp)
    (hlen : (mapClassNames model_classes chkpt_classes).length = model_classes.length)
    (hcb : ∀ c ∈ mapClassNames model_classes chkpt_classes,
      c < (chkpt_classes.length : Int))
    (hmplen : model_classes.length * stride ≤ mp.length)
    (hmpBG : model_classes.length * stride < mp.length →
      (model_classes.length + 1) * stride ≤ mp.length)
    (hcplen : chkpt_classes.length * stride ≤ cp.length)
    (hcpBG : model_classes.length * stride < mp.length →
      (chkpt_classes.length + 1) * stride ≤ cp.length) :
    (load_state_dict_pre_hook mapClassNames modelDict model_classes chkpt_classes
        chkptDict pfx).find? (pfx ++ name) =
      some (mixParam stride model_classes.length chkpt_classes.length
        (mapClassNames model_classes chkpt_classes) mp cp)
    ∧ (mixParam stride model_classes.length chkpt_classes.length
        (mapClassNames model_classes chkpt_classes) mp cp).length = mp.length
    ∧ (∀ j : Nat, ∀ c : Int,
        (mapClassNames model_classes chkpt_classes).get? j = some c → 0 ≤ c →
        block (mixParam stride model_classes.length chkpt_classes.length
            (mapClassNames model_classes chkpt_classes) mp cp) j stride =
          block cp c.toNat stride)
    ∧ (∀ j : Nat, ∀ c : Int,
        (mapClassNames model_classes chkpt_classes).get? j = some c → c < 0 →
        block (mixParam stride model_classes.length chkpt_classes.length
            (mapClassNames model_classes chkpt_classes) mp cp) j stride =
          block mp j stride)
    ∧ (model_classes.length * stride < mp.length →
        block (mixParam stride model_classes.length chkpt_classes.length
            (mapClassNames model_classes chkpt_classes) mp cp)
            model_classes.length stride =
          block cp chkpt_classes.length stride)
    ∧ (∀ k : String,
        (∀ ps ∈ param_strides,
          ¬(k = pfx ++ ps.1 ∧ modelDict.find? ps.1 ≠ none ∧
            chkptDict.find? k ≠ none)) →
        (load_state_dict_pre_hook mapClassNames modelDict model_classes chkpt_classes
          chkptDict pfx).find? k = chkptDict.find? k) := by
  have hcs : ∀ c ∈ mapClassNames model_classes chkpt_classes, 0 ≤ c →
      (c.toNat + 1) * stride ≤ cp.length := by
    intro c hcmem hc0
    have hcn : c.toNat + 1 ≤ chkpt_classes.length := by
      have := hcb c hcmem; omega
    exact le_trans (Nat.mul_le_mul_right stride hcn) hcplen
  refine ⟨?_, ?_, ?_, ?_, ?_, ?_⟩
  · -- the mixed parameter is stored under the prefixed name
    obtain ⟨l1, l2, hdec⟩ := List.append_of_mem hps
    have hnodup : (param_strides.map Prod.fst).Nodup := by decide
    have hmapdec : param_strides.map Prod.fst =
        l1.map Prod.fst ++ name :: l2.map Prod.fst := by
      rw [hdec]; simp
    rw [hmapdec] at hnodup
    rcases List.nodup_append.mp hnodup with ⟨hn1, hn2, hdisj⟩
    have h1 : ∀ ps ∈ l1, ps.1 ≠ name := by
      intro ps hps1 hcon
      exact hdisj (List.mem_map_of_mem Prod.fst hps1)
        (by rw [hcon]; exact List.mem_cons_self _ _)
    have h2 : ∀ ps ∈ l2, ps.1 ≠ name := by
      intro ps hps2 hcon
      rcases List.nodup_cons.mp hn2 with ⟨hnin, _⟩
      exact hnin (by rw [← hcon]; exact List.mem_map_of_mem Prod.fst hps2)
    show (param_strides.foldl
        (hookStep modelDict model_classes.length chkpt_classes.length
          (mapClassNames model_classes chkpt_classes) pfx) chkptDict).find?
        (pfx ++ name) = _
    rw [hdec, List.foldl_append, List.foldl_cons]
    have hA : (l1.foldl
        (hookStep modelDict model_classes.length chkpt_classes.length
          (mapClassNames model_classes chkpt_classes) pfx) chkptDict).find?
        (pfx ++ name) = some cp := by
      rw [foldl_hookStep_unchanged _ _ _ _ _ _ l1 chkptDict
        (fun ps hps1 hcontra =>
          (h1 ps hps1) (string_append_right_inj pfx name ps.1 hcontra.1).symm)]
      exact hcp
    have hB : hookStep modelDict model_classes.length chkpt_classes.length
        (mapClassNames model_classes chkpt_classes) pfx
        (l1.foldl (hookStep modelDict model_classes.length chkpt_classes.length
          (mapClassNames model_classes chkpt_classes) pfx) chkptDict)
        (name, stride) =
        (l1.foldl (hookStep modelDict model_classes.length chkpt_classes.length
          (mapClassNames model_classes chkpt_classes) pfx) chkptDict).set
          (pfx ++ name)
          (mixParam stride model_classes.length chkpt_classes.length
            (mapClassNames model_classes chkpt_classes) mp cp) := by
      simp only [hookStep, hmp, hA]
    rw [hB, foldl_hookStep_unchanged _ _ _ _ _ _ l2 _
      (fun ps hps2 hcontra =>
        (h2 ps hps2) (string_append_right_inj pfx name ps.1 hcontra.1).symm),
      StateDict.find_set_self]
  · exact mixParam_length stride model_classes.length chkpt_classes.length
      (mapClassNames model_classes chkpt_classes) mp cp hlen hmplen hcs hmpBG hcpBG
  · intro j c hj hc
    exact mixParam_block_matched stride model_classes.length chkpt_classes.length
      (mapClassNames model_classes chkpt_classes) mp cp j c hj hc hlen hmplen hcs
      hmpBG hcpBG
  · intro j c hj hc
    exact mixParam_block_unmatched stride model_classes.length chkpt_classes.length
      (mapClassNames model_classes chkpt_classes) mp cp j c hj hc hlen hmplen hcs
      hmpBG hcpBG
  · intro hlt
    exact mixParam_block_bg stride model_classes.length chkpt_classes.length
      (mapClassNames model_classes chkpt_classes) mp cp hlen hmplen hcs hmpBG hcpBG hlt
  · intro k hcond
    exact foldl_hookStep_unchanged modelDict model_classes.length chkpt_classes.length
      (mapClassNames model_classes chkpt_classes) pfx k param_strides chkptDict hcond

theorem C1_weight_remapping_witness :
    (load_state_dict_pre_hook (fun _ _ => [1, -1])
        [("roi_head.bbox_head.fc_cls.weight", [10, 11, 12])] ["a", "b"] ["x", "y"]
        [("p.roi_head.bbox_head.fc_cls.weight", [20, 21, 22])] "p.").find?
        ("p." ++ "roi_head.bbox_head.fc_cls.weight") = some [21, 11, 22] := by
  have h := C1_weight_remapping (α := Nat) (fun _ _ => [1, -1])
    [("roi_head.bbox_head.fc_cls.weight", [10, 11, 12])]
    [("p.roi_head.bbox_head.fc_cls.weight", [20, 21, 22])]
    ["a", "b"] ["x", "y"] "p." "roi_head.bbox_head.fc_cls.weight" 1
    [10, 11, 12] [20, 21, 22]
    (by decide) (by decide) (by decide) (by decide) (by decide) (by decide)
    (by decide) (by decide) (by decide)
  exact h.1.trans (by decide)

/-! ## OpenVINODetectionTask.load_config -/

/-- `OpenVINODetectionTask.load_config`.  `config = vars(self.hparams)` then
`flatten_detection_config_groups(config)` run before the `try` block; inside
it, the model's `config.json` data is loaded, parsed, flattened and merged
into the config, and any exception is caught, leaving the un-merged config.
The helpers (`flatten_detection_config_groups`, `json.loads`,
`flatten_config_values`, `merge_a_into_b`, from `otx.api`, outside src/) and
`self.model.get_data` are abstract parameters; a raised exception is an
`Except.error`, and `getData = .ok none` stands for a task whose model is
`None` or whose `config.json` data is falsy. -/
def load_config {Cfg J B E : Type}
    (hparamsVars : Cfg)
    (flattenDetectionConfigGroups : Cfg → Cfg)
    (getData : Except E (Option B))
    (jsonLoads : B → Except E J)
    (flattenConfigValues : J → Except E J)
    (mergeAIntoB : J → Cfg → Except E Cfg) : Cfg :=
  let config := flattenDetectionConfigGroups hparamsVars
  match getData with
  | .error _ => config
  | .ok none => config
  | .ok (some s) =>
    match jsonLoads s with
    | .error _ => config
    | .ok j =>
      match flattenConfigValues j with
      | .error _ => config
      | .ok j2 =>
        match mergeAIntoB j2 config with
        | .error _ => config
        | .ok merged => merged

/-- C2: JSON config merge with fallback.  `load_config` returns the merged
config whenever the model carries parseable `config.json` data and every step
of the merge succeeds; when any of loading, parsing, flattening or merging
raises, or there is no (truthy) `config.json`, it returns the flattened
hyper-parameter config without the merge. -/
theorem C2_load_config_merge_fallback {Cfg J B E : Type}
    (hparamsVars : Cfg)
    (flattenDetectionConfigGroups : Cfg → Cfg)
    (getData : Except E (Option B))
    (jsonLoads : B → Except E J)
    (flattenConfigValues : J → Except E J)
    (mergeAIntoB : J → Cfg → Except E Cfg) :
    (∀ (s : B) (j j2 : J) (merged : Cfg),
      getData = .ok (some s) →
      jsonLoads s = .ok j →
      flattenConfigValues j = .ok j2 →
      mergeAIntoB j2 (flattenDetectionConfigGroups hparamsVars) = .ok merged →
      load_config hparamsVars flattenDetectionConfigGroups getData jsonLoads
        flattenConfigValues mergeAIntoB = merged)
    ∧ (∀ e : E, getData = .error e →
      load_config hparamsVars flattenDetectionConfigGroups getData jsonLoads
        flattenConfigValues mergeAIntoB = flattenDetectionConfigGroups hparamsVars)
    ∧ (getData = .ok none →
      load_config hparamsVars flattenDetectionConfigGroups getData jsonLoads
        flattenConfigValues mergeAIntoB = flattenDetectionConfigGroups hparamsVars)
    ∧ (∀ (s : B) (e : E), getData = .ok (some s) → jsonLoads s = .error e →
      load_config hparamsVars flattenDetectionConfigGroups getData jsonLoads
        flattenConfigValues mergeAIntoB = flattenDetectionConfigGroups hparamsVars)
    ∧ (∀ (s : B) (j : J) (e : E), getData = .ok (some s) → jsonLoads s = .ok j →
      flattenConfigValues j = .error e →
      load_config hparamsVars flattenDetectionConfigGroups getData jsonLoads
        flattenConfigValues mergeAIntoB = flattenDetectionConfigGroups hparamsVars)
    ∧ (∀ (s : B) (j j2 : J) (e : E), getData = .ok (some s) → jsonLoads s = .ok j →
      flattenConfigValues j = .ok j2 →
      mergeAIntoB j2 (flattenDetectionConfigGroups hparamsVars) = .error e →
      load_config hparamsVars flattenDetectionConfigGroups getData jsonLoads
        flattenConfigValues mergeAIntoB = flattenDetectionConfigGroups hparamsVars) := by
  refine ⟨?_, ?_, ?_, ?_, ?_, ?_⟩
  · intro s j j2 merged h1 h2 h3 h4
    simp only [load_config, h1, h2, h3, h4]
  · intro e h1
    simp only [load_config, h1]
  · intro h1
    simp only [load_config, h1]
  · intro s e h1 h2
    simp only [load_config, h1, h2]
  · intro s j e h1 h2 h3
    simp only [load_config, h1, h2, h3]
  · intro s j j2 e h1 h2 h3 h4
    simp only [load_config, h1, h2, h3, h4]

theorem C2_load_config_merge_fallback_witness :
    load_config 5 (fun c => c + 1) (Except.ok (some 3))
      (fun s => Except.ok (s * 2)) (fun j => Except.ok j)
      (fun j c => (Except.ok (j + c) : Except Nat Nat)) = 12 :=
  (C2_load_config_merge_fallback 5 (fun c => c + 1) (Except.ok (some 3))
      (fun s => Except.ok (s * 2)) (fun j => Except.ok j)
      (fun j c => Except.ok (j + c))).1
    3 6 6 12 rfl rfl rfl rfl

/-! ## OpenVINODetectionTask: data model -/

/-- `otx.api` enums (only the members this file touches). -/
inductive TaskType
  | DETECTION
  | INSTANCE_SEGMENTATION
  | ROTATED_DETECTION
  | OTHER
  deriving DecidableEq

inductive OptimizationType
  | POT
  | NNCF
  deriving DecidableEq

inductive ModelFormat
  | OPENVINO
  | BASE_FRAMEWORK
  deriving DecidableEq

inductive ModelOptimizationType
  | NONE
  | POT
  | NNCF
  | MO
  deriving DecidableEq

inductive OptimizationMethod
  | QUANTIZATION
  | FILTER_PRUNING
  deriving DecidableEq

inductive ModelPrecision
  | INT8
  | FP16
  | FP32
  deriving DecidableEq

/-- The `config.tiling_parameters` group read by the task. -/
structure TilingParameters where
  enable_tiling : Bool
  enable_tile_classifier : Bool
  tile_size : Nat
  tile_overlap : Rat
  tile_max_number : Nat
  deriving DecidableEq

/-- The part of the task's `ADDict` config the embedded methods read. -/
structure TaskConfig where
  tiling_parameters : TilingParameters
  deriving DecidableEq

/-- Python errors the task methods can raise. -/
inductive TaskError
  | valueError (msg : String)
  | runtimeError (msg : String)
  | keyError (key : String)
  | unboundLocal
  deriving DecidableEq

/-- Generic string-keyed Python dict (used for model data and zip entries). -/
def lookupKV {β : Type} : List (String × β) → String → Option β
  | [], _ => none
  | (k', v) :: rest, k => if k' = k then some v else lookupKV rest k

def setKV {β : Type} : List (String × β) → String → β → List (String × β)
  | [], k, v => [(k, v)]
  | (k', v') :: rest, k, v =>
    if k' = k then (k', v) :: rest else (k', v') :: setKV rest k v

/-- `otx.api.entities.model.ModelEntity`: its `get_data`/`set_data` blob store
and the attributes the task writes; `exportable_code` holds the zip archive,
modelled as its list of entries. -/
structure ModelEntity (β : Type) where
  data : List (String × β)
  model_format : Option ModelFormat
  optimization_type : Option ModelOptimizationType
  optimization_methods : List OptimizationMethod
  precision : List ModelPrecision
  exportable_code : Option (List (String × β))
  deriving DecidableEq

/-- `model.get_data(key)`. -/
def ModelEntity.get_data {β : Type} (m : ModelEntity β) (k : String) : Option β :=
  lookupKV m.data k

/-- `model.set_data(key, value)`. -/
def ModelEntity.set_data {β : Type} (m : ModelEntity β) (k : String) (v : β) :
    ModelEntity β :=
  { m with data := setKV m.data k v }

/-- Which prediction-to-annotation converter a task-type inferencer holds. -/
inductive ConverterKind
  | detection
  | mask
  | rotatedRect
  deriving DecidableEq

/-- A `BaseInferencerWithConverter` as built by the three task-type
inferencer constructors: the model-wrapper name passed to
`Model.create_model`, the configuration dict, the IR model and weights data
given to the `OpenvinoAdapter`, and the converter. -/
structure BaseInferencer (β C : Type) where
  modelName : String
  configuration : C
  xml : β
  bin : β
  converter : ConverterKind
  deriving DecidableEq

/-- The inferencer returned by `load_inferencer`: a bare task-type inferencer
or an `OpenVINOTileClassifierWrapper` around one, holding the `Tiler`
arguments and the optional tile-classifier model data. -/
inductive Inferencer (β C : Type)
  | base (b : BaseInferencer β C)
  | tile (inner : BaseInferencer β C) (tile_size : Nat) (overlap : Rat)
      (max_number : Nat) (classifier_xml classifier_bin : Option β)
  deriving DecidableEq

/-- `inferencer.configuration` (the wrapper forwards its inner inferencer's). -/
def Inferencer.configuration {β C : Type} : Inferencer β C → C
  | .base b => b.configuration
  | .tile b _ _ _ _ _ => b.configuration

/-- `inferencer.model.__model__` (the wrapper forwards its inner model). -/
def Inferencer.modelName {β C : Type} : Inferencer β C → String
  | .base b => b.modelName
  | .tile b _ _ _ _ _ => b.modelName

/-- External conversions the task delegates to numpy / attr / otx.api
serialization, abstracted: float32 byte decoding/encoding, the deep-copied
hparams update `_hparams.postprocessing.confidence_threshold = ...`,
`attr.asdict(hparams.postprocessing, ...)`, `label_schema_to_bytes`,
`config_to_bytes` and `LabelSchemaMapper.forward`. -/
structure Ext (β H C L L' : Type) where
  decodeF32 : β → Rat
  encodeF32 : Rat → β
  setConfidenceThreshold : H → Rat → H
  asdictPostprocessing : H → C
  labelSchemaToBytes : L → β
  configToBytes : H → β
  labelSchemaMapperForward : L → L'

/-- The state of an `OpenVINODetectionTask` that its methods read or write. -/
structure TaskState (β H C L : Type) where
  task_type : TaskType
  config : TaskConfig
  hparams : H
  label_schema : L
  model : Option (ModelEntity β)
  confidence_threshold : Rat
  inferencer : Option (Inferencer β C)

/-- The task-type dispatch of `load_inferencer` (the three sequential `if`
statements choosing the inferencer class); `none` when no branch assigns
`inferencer`. -/
def baseInferencerFor {β C : Type} (tt : TaskType) (cfg : C) (xml bin : β) :
    Option (BaseInferencer β C) :=
  match tt with
  | .DETECTION => some ⟨"OTX_SSD", cfg, xml, bin, .detection⟩
  | .INSTANCE_SEGMENTATION => some ⟨"OTX_MaskRCNN", cfg, xml, bin, .mask⟩
  | .ROTATED_DETECTION => some ⟨"OTX_MaskRCNN", cfg, xml, bin, .rotatedRect⟩
  | .OTHER => none

/-- `OpenVINODetectionTask.load_inferencer`: raises when the model is `None`,
reads the confidence threshold (updating `self.confidence_threshold`, the
first component of the result), builds the task-type inferencer over the
model's `openvino.xml`/`openvino.bin`, and wraps it in an
`OpenVINOTileClassifierWrapper` when tiling is enabled, loading the tile
classifier data exactly when `enable_tile_classifier` is also set. -/
def load_inferencer {β H C L L' : Type} (ext : Ext β H C L L')
    (t : TaskState β H C L) : Except TaskError (Rat × Inferencer β C) :=
  match t.model with
  | none => .error (.runtimeError "load_inferencer failed, model is None")
  | some m =>
    match m.get_data "confidence_threshold" with
    | none => .error (.keyError "confidence_threshold")
    | some ctData =>
      let ct := ext.decodeF32 ctData
      let hp := ext.setConfidenceThreshold t.hparams ct
      match m.get_data "openvino.xml", m.get_data "openvino.bin" with
      | some xml, some bin =>
        match baseInferencerFor t.task_type (ext.asdictPostprocessing hp) xml bin with
        | none => .error .unboundLocal
        | some b =>
          if t.config.tiling_parameters.enable_tiling then
            if t.config.tiling_parameters.enable_tile_classifier then
              match m.get_data "tile_classifier.xml", m.get_data "tile_classifier.bin" with
              | some cxml, some cbin =>
                .ok (ct, .tile b t.config.tiling_parameters.tile_size
                  t.config.tiling_parameters.tile_overlap
                  t.config.tiling_parameters.tile_max_number (some cxml) (some cbin))
              | _, _ => .error (.keyError "tile_classifier")
            else
              .ok (ct, .tile b t.config.tiling_parameters.tile_size
                t.config.tiling_parameters.tile_overlap
                t.config.tiling_parameters.tile_max_number none none)
          else .ok (ct, .base b)
      | _, _ => .error (.keyError "openvino")

theorem lookupKV_set_self {β : Type} (d : List (String × β)) (k : String) (v : β) :
    lookupKV (setKV d k v) k = some v := by
  induction d with
  | nil => simp [setKV, lookupKV]
  | cons hd tl ih =>
    obtain ⟨k', v'⟩ := hd
    by_cases h : k' = k
    · simp [setKV, lookupKV, h]
    · simp [setKV, lookupKV, h, ih]

theorem lookupKV_set_ne {β : Type} (d : List (String × β)) (k k' : String) (v : β)
    (h : k' ≠ k) : lookupKV (setKV d k v) k' = lookupKV d k' := by
  induction d with
  | nil => simp [setKV, lookupKV, Ne.symm h]
  | cons hd tl ih =>
    obtain ⟨k0, v0⟩ := hd
    by_cases h0 : k0 = k
    · subst h0
      simp [setKV, lookupKV, h, Ne.symm h]
    · simp [setKV, lookupKV, h0, ih]

/-- C5: Tiled inference wrapping.  `load_inferencer` raises RuntimeError when
the task's model is None; otherwise it builds the inferencer matching the
task type over the model's `openvino.xml`/`openvino.bin`, and when
`tiling_parameters.enable_tiling` is set the result is an
`OpenVINOTileClassifierWrapper` around it, built with the configured
tile_size, tile_overlap and tile_max_number, loaded with the model's
`tile_classifier.xml`/`tile_classifier.bin` exactly when
`enable_tile_classifier` is also set. -/
theorem C5_load_inferencer_tiling {β H C L L' : Type} (ext : Ext β H C L L')
    (t : TaskState β H C L) (m : ModelEntity β) (ctData xml bin : β)
    (b : BaseInferencer β C) :
    (∀ t0 : TaskState β H C L, t0.model = none →
      load_inferencer ext t0 =
        .error (.runtimeError "load_inferencer failed, model is None"))
    ∧ (∀ (cfg : C) (x y : β),
        baseInferencerFor TaskType.DETECTION cfg x y =
          some ⟨"OTX_SSD", cfg, x, y, .detection⟩
        ∧ baseInferencerFor TaskType.INSTANCE_SEGMENTATION cfg x y =
          some ⟨"OTX_MaskRCNN", cfg, x, y, .mask⟩
        ∧ baseInferencerFor TaskType.ROTATED_DETECTION cfg x y =
          some ⟨"OTX_MaskRCNN", cfg, x, y, .rotatedRect⟩)
    ∧ (t.model = some m →
       m.get_data "confidence_threshold" = some ctData →
       m.get_data "openvino.xml" = some xml →
       m.get_data "openvino.bin" = some bin →
       baseInferencerFor t.task_type
         (ext.asdictPostprocessing
           (ext.setConfidenceThreshold t.hparams (ext.decodeF32 ctData)))
         xml bin = some b →
       (t.config.tiling_parameters.enable_tiling = false →
         load_inferencer ext t = .ok (ext.decodeF32 ctData, .base b))
       ∧ (∀ cxml cbin : β,
          t.config.tiling_parameters.enable_tiling = true →
          t.config.tiling_parameters.enable_tile_classifier = true →
          m.get_data "tile_classifier.xml" = some cxml →
          m.get_data "tile_classifier.bin" = some cbin →
          load_inferencer ext t = .ok (ext.decodeF32 ctData,
            .tile b t.config.tiling_parameters.tile_size
              t.config.tiling_parameters.tile_overlap
              t.config.tiling_parameters.tile_max_number (some cxml) (some cbin)))
       ∧ (t.config.tiling_parameters.enable_tiling = true →
          t.config.tiling_parameters.enable_tile_classifier = false →
          load_inferencer ext t = .ok (ext.decodeF32 ctData,
            .tile b t.config.tiling_parameters.tile_size
              t.config.tiling_parameters.tile_overlap
              t.config.tiling_parameters.tile_max_number none none))) := by
  refine ⟨?_, ?_, ?_⟩
  · intro t0 h0
    simp only [load_inferencer, h0]
  · intro cfg x y
    exact ⟨rfl, rfl, rfl⟩
  · intro hm hct hxml hbin hb
    refine ⟨?_, ?_, ?_⟩
    · intro htile
      simp only [load_inferencer, hm, hct, hxml, hbin, hb, htile, Bool.false_eq_true,
        if_false]
    · intro cxml cbin htile hcls hcx hcb
      simp only [load_inferencer, hm, hct, hxml, hbin, hb, htile, hcls, hcx, hcb,
        if_true]
    · intro htile hcls
      simp only [load_inferencer, hm, hct, hxml, hbin, hb, htile, hcls,
        Bool.false_eq_true, if_true, if_false]

theorem C5_load_inferencer_tiling_witness :
    load_inferencer
      (⟨fun v => (v : Rat), fun _ => 0, fun h _ => h, fun h => h, fun _ => 0,
        fun _ => 0, fun l => l⟩ : Ext Nat Nat Nat Nat Nat)
      ⟨TaskType.DETECTION, ⟨⟨false, false, 400, 0, 100⟩⟩, 0, 0,
        some ⟨[("confidence_threshold", 7), ("openvino.xml", 1), ("openvino.bin", 2)],
          none, none, [], [], none⟩, 0, none⟩ =
      Except.ok ((7 : Rat), Inferencer.base ⟨"OTX_SSD", 0, 1, 2, .detection⟩) := by
  have h := C5_load_inferencer_tiling
    (⟨fun v => (v : Rat), fun _ => 0, fun h _ => h, fun h => h, fun _ => 0,
      fun _ => 0, fun l => l⟩ : Ext Nat Nat Nat Nat Nat)
    ⟨TaskType.DETECTION, ⟨⟨false, false, 400, 0, 100⟩⟩, 0, 0,
      some ⟨[("confidence_threshold", 7), ("openvino.xml", 1), ("openvino.bin", 2)],
        none, none, [], [], none⟩, 0, none⟩
    ⟨[("confidence_threshold", 7), ("openvino.xml", 1), ("openvino.bin", 2)],
      none, none, [], [], none⟩
    7 1 2 ⟨"OTX_SSD", 0, 1, 2, .detection⟩
  exact (h.2.2 rfl (by decide) (by decide) (by decide) rfl).1 rfl

/-- The output model as `optimize` leaves it on success: the compressed IR
written by `save_model` (`potXml`/`potBin`), the confidence threshold as
float32 bytes, the serialized label schema and config, and the quantized
model attributes. -/
def optimizedOutputModel {β H C L L' : Type} (ext : Ext β H C L L')
    (t : TaskState β H C L) (potXml potBin : β) (output_model : ModelEntity β) :
    ModelEntity β :=
  let out1 := ((((output_model.set_data "openvino.xml" potXml).set_data
    "openvino.bin" potBin).set_data "confidence_threshold"
    (ext.encodeF32 t.confidence_threshold)).set_data "label_schema.json"
    (ext.labelSchemaToBytes t.label_schema)).set_data "config.json"
    (ext.configToBytes t.hparams)
  { out1 with
    model_format := some .OPENVINO,
    optimization_type := some .POT,
    optimization_methods := [.QUANTIZATION],
    precision := [.INT8] }

/-- `OpenVINODetectionTask.optimize`.  The POT pipeline itself is external
(`compression` library): `hasFakeQuantize` stands for
`get_nodes_by_type(load_model(...), ["FakeQuantize"])` being non-empty on the
loaded IR, and `potXml`/`potBin` for the compressed model files the pipeline
and `save_model` produce.  The training-subset data loader, engine and
algorithm configs only feed that external pipeline.  Result: the task state,
the output model, and the raised error if any. -/
def optimize {β H C L L' : Type} (ext : Ext β H C L L')
    (optimization_type : OptimizationType) (hasFakeQuantize : Bool)
    (potXml potBin : β) (t : TaskState β H C L) (output_model : ModelEntity β) :
    TaskState β H C L × ModelEntity β × Option TaskError :=
  if optimization_type ≠ OptimizationType.POT then
    (t, output_model,
      some (.valueError "POT is the only supported optimization type for OpenVino models"))
  else
    match t.model with
    | none => (t, output_model, some (.runtimeError "Optimize failed, model is None"))
    | some m =>
      match m.get_data "openvino.xml", m.get_data "openvino.bin" with
      | some _, some _ =>
        if hasFakeQuantize then
          (t, output_model, some (.runtimeError "Model is already optimized by POT"))
        else
          let om := optimizedOutputModel ext t potXml potBin output_model
          let t1 := { t with model := some om }
          match load_inferencer ext t1 with
          | .ok r =>
            ({ t1 with confidence_threshold := r.1, inferencer := some r.2 }, om, none)
          | .error e => (t1, om, some e)
      | _, _ => (t, output_model, some (.keyError "openvino"))

/-- C3: Post-training quantization preconditions.  `optimize` raises
ValueError for any optimization type other than POT, RuntimeError when the
task's model is None, and RuntimeError ("Model is already optimized by POT")
when the loaded graph has FakeQuantize nodes; in each case the output model
is returned unmodified. -/
theorem C3_optimize_preconditions {β H C L L' : Type} (ext : Ext β H C L L')
    (optimization_type : OptimizationType) (hasFakeQuantize : Bool)
    (potXml potBin : β) (t : TaskState β H C L) (output_model : ModelEntity β) :
    (optimization_type ≠ OptimizationType.POT →
      optimize ext optimization_type hasFakeQuantize potXml potBin t output_model =
        (t, output_model,
          some (.valueError
            "POT is the only supported optimization type for OpenVino models")))
    ∧ (optimization_type = OptimizationType.POT → t.model = none →
      optimize ext optimization_type hasFakeQuantize potXml potBin t output_model =
        (t, output_model, some (.runtimeError "Optimize failed, model is None")))
    ∧ (∀ (m : ModelEntity β) (xml bin : β),
       optimization_type = OptimizationType.POT → t.model = some m →
       m.get_data "openvino.xml" = some xml → m.get_data "openvino.bin" = some bin →
       hasFakeQuantize = true →
      optimize ext optimization_type hasFakeQuantize potXml potBin t output_model =
        (t, output_model, some (.runtimeError "Model is already optimized by POT"))) := by
  refine ⟨?_, ?_, ?_⟩
  · intro hne
    simp only [optimize, if_pos hne]
  · intro hpot hm
    subst hpot
    simp only [optimize, hm]
    rfl
  · intro m xml bin hpot hm hxml hbin hfq
    subst hpot
    simp only [optimize, hm, hxml, hbin, hfq, if_true]
    rfl

theorem C3_optimize_preconditions_witness :
    optimize
      (⟨fun v => (v : Rat), fun _ => 0, fun h _ => h, fun h => h, fun _ => 0,
        fun _ => 0, fun l => l⟩ : Ext Nat Nat Nat Nat Nat)
      OptimizationType.NNCF false 10 20
      ⟨TaskType.DETECTION, ⟨⟨false, false, 400, 0, 100⟩⟩, 0, 0, none, 0, none⟩
      ⟨[], none, none, [], [], none⟩ =
      (⟨TaskType.DETECTION, ⟨⟨false, false, 400, 0, 100⟩⟩, 0, 0, none, 0, none⟩,
        ⟨[], none, none, [], [], none⟩,
        some (.valueError
          "POT is the only supported optimization type for OpenVino models")) :=
  (C3_optimize_preconditions
    (⟨fun v => (v : Rat), fun _ => 0, fun h _ => h, fun h => h, fun _ => 0,
      fun _ => 0, fun l => l⟩ : Ext Nat Nat Nat Nat Nat)
    OptimizationType.NNCF false 10 20
    ⟨TaskType.DETECTION, ⟨⟨false, false, 400, 0, 100⟩⟩, 0, 0, none, 0, none⟩
    ⟨[], none, none, [], [], none⟩).1 (by decide)

/-- C6: Post-training quantization postcondition.  When `optimize` completes
without raising, the output model carries the compressed `openvino.xml` and
`openvino.bin`, the float32-encoded confidence threshold,
`label_schema.json` and `config.json`, its attributes are set to
OPENVINO / POT / [QUANTIZATION] / [INT8], the task's model is replaced by the
output model and its inferencer is reloaded from it. -/
theorem C6_optimize_postcondition {β H C L L' : Type} (ext : Ext β H C L L')
    (hasFakeQuantize : Bool) (potXml potBin : β)
    (t : TaskState β H C L) (output_model : ModelEntity β)
    (m : ModelEntity β) (xml bin : β) (r : Rat × Inferencer β C)
    (hm : t.model = some m)
    (hxml : m.get_data "openvino.xml" = some xml)
    (hbin : m.get_data "openvino.bin" = some bin)
    (hfq : hasFakeQuantize = false)
    (hli : load_inferencer ext
      { t with model := some (optimizedOutputModel ext t potXml potBin output_model) } =
      .ok r) :
    optimize ext OptimizationType.POT hasFakeQuantize potXml potBin t output_model =
      ({ t with
          model := some (optimizedOutputModel ext t potXml potBin output_model),
          confidence_threshold := r.1,
          inferencer := some r.2 },
        optimizedOutputModel ext t potXml potBin output_model, none)
    ∧ (optimizedOutputModel ext t potXml potBin output_model).get_data "openvino.xml" =
        some potXml
    ∧ (optimizedOutputModel ext t potXml potBin output_model).get_data "openvino.bin" =
        some potBin
    ∧ (optimizedOutputModel ext t potXml potBin output_model).get_data
        "confidence_threshold" = some (ext.encodeF32 t.confidence_threshold)
    ∧ (optimizedOutputModel ext t potXml potBin output_model).get_data
        "label_schema.json" = some (ext.labelSchemaToBytes t.label_schema)
    ∧ (optimizedOutputModel ext t potXml potBin output_model).get_data "config.json" =
        some (ext.configToBytes t.hparams)
    ∧ (optimizedOutputModel ext t potXml potBin output_model).model_format =
        some ModelFormat.OPENVINO
    ∧ (optimizedOutputModel ext t potXml potBin output_model).optimization_type =
        some ModelOptimizationType.POT
    ∧ (optimizedOutputModel ext t potXml potBin output_model).optimization_methods =
        [OptimizationMethod.QUANTIZATION]
    ∧ (optimizedOutputModel ext t potXml potBin output_model).precision =
        [ModelPrecision.INT8] := by
  refine ⟨?_, ?_, ?_, ?_, ?_, ?_, rfl, rfl, rfl, rfl⟩
  · simp only [optimize, hm, hxml, hbin, hfq, Bool.false_eq_true, if_false,
      if_neg (by simp : ¬(OptimizationType.POT ≠ OptimizationType.POT)), hli]
  · simp only [optimizedOutputModel, ModelEntity.get_data, ModelEntity.set_data,
      lookupKV_set_ne _ _ _ _ (by decide : "openvino.xml" ≠ "config.json"),
      lookupKV_set_ne _ _ _ _ (by decide : "openvino.xml" ≠ "label_schema.json"),
      lookupKV_set_ne _ _ _ _ (by decide : "openvino.xml" ≠ "confidence_threshold"),
      lookupKV_set_ne _ _ _ _ (by decide : "openvino.xml" ≠ "openvino.bin"),
      lookupKV_set_self]
  · simp only [optimizedOutputModel, ModelEntity.get_data, ModelEntity.set_data,
      lookupKV_set_ne _ _ _ _ (by decide : "openvino.bin" ≠ "config.json"),
      lookupKV_set_ne _ _ _ _ (by decide : "openvino.bin" ≠ "label_schema.json"),
      lookupKV_set_ne _ _ _ _ (by decide : "openvino.bin" ≠ "confidence_threshold"),
      lookupKV_set_self]
  · simp only [optimizedOutputModel, ModelEntity.get_data, ModelEntity.set_data,
      lookupKV_set_ne _ _ _ _ (by decide : "confidence_threshold" ≠ "config.json"),
      lookupKV_set_ne _ _ _ _ (by decide : "confidence_threshold" ≠ "label_schema.json"),
      lookupKV_set_self]
  · simp only [optimizedOutputModel, ModelEntity.get_data, ModelEntity.set_data,
      lookupKV_set_ne _ _ _ _ (by decide : "label_schema.json" ≠ "config.json"),
      lookupKV_set_self]
  · simp only [optimizedOutputModel, ModelEntity.get_data, ModelEntity.set_data,
      lookupKV_set_self]

theorem C6_optimize_postcondition_witness :
    optimize
      (⟨fun v => (v : Rat), fun _ => 0, fun h _ => h, fun h => h, fun _ => 0,
        fun _ => 0, fun l => l⟩ : Ext Nat Nat Nat Nat Nat)
      OptimizationType.POT false 10 20
      ⟨TaskType.DETECTION, ⟨⟨false, false, 400, 0, 100⟩⟩, 0, 0,
        some ⟨[("openvino.xml", 1), ("openvino.bin", 2)], none, none, [], [], none⟩,
        5, none⟩
      ⟨[], none, none, [], [], none⟩ =
      (⟨TaskType.DETECTION, ⟨⟨false, false, 400, 0, 100⟩⟩, 0, 0,
        some (optimizedOutputModel
          (⟨fun v => (v : Rat), fun _ => 0, fun h _ => h, fun h => h, fun _ => 0,
            fun _ => 0, fun l => l⟩ : Ext Nat Nat Nat Nat Nat)
          ⟨TaskType.DETECTION, ⟨⟨false, false, 400, 0, 100⟩⟩, 0, 0,
            some ⟨[("openvino.xml", 1), ("openvino.bin", 2)], none, none, [], [], none⟩,
            5, none⟩
          10 20 ⟨[], none, none, [], [], none⟩),
        ((0 : Nat) : Rat),
        some (.base ⟨"OTX_SSD", 0, 10, 20, .detection⟩)⟩,
       optimizedOutputModel
        (⟨fun v => (v : Rat), fun _ => 0, fun h _ => h, fun h => h, fun _ => 0,
          fun _ => 0, fun l => l⟩ : Ext Nat Nat Nat Nat Nat)
        ⟨TaskType.DETECTION, ⟨⟨false, false, 400, 0, 100⟩⟩, 0, 0,
          some ⟨[("openvino.xml", 1), ("openvino.bin", 2)], none, none, [], [], none⟩,
          5, none⟩
        10 20 ⟨[], none, none, [], [], none⟩, none) := by
  have h := C6_optimize_postcondition
    (⟨fun v => (v : Rat), fun _ => 0, fun h _ => h, fun h => h, fun _ => 0,
      fun _ => 0, fun l => l⟩ : Ext Nat Nat Nat Nat Nat)
    false 10 20
    ⟨TaskType.DETECTION, ⟨⟨false, false, 400, 0, 100⟩⟩, 0, 0,
      some ⟨[("openvino.xml", 1), ("openvino.bin", 2)], none, none, [], [], none⟩,
      5, none⟩
    ⟨[], none, none, [], [], none⟩
    ⟨[("openvino.xml", 1), ("openvino.bin", 2)], none, none, [], [], none⟩
    1 2 (((0 : Nat) : Rat), .base ⟨"OTX_SSD", 0, 10, 20, .detection⟩)
    rfl (by decide) (by decide) rfl rfl
  exact h.1

/-- `str(self.task_type)`. -/
def taskTypeName : TaskType → String
  | .DETECTION => "DETECTION"
  | .INSTANCE_SEGMENTATION => "INSTANCE_SEGMENTATION"
  | .ROTATED_DETECTION => "ROTATED_DETECTION"
  | .OTHER => "OTHER"

/-- The `parameters` dict `deploy` serializes into `model/config.json`:
model type, converter type, the inferencer configuration with the mapped
label schema added under `"labels"`, and the tiling parameters. -/
structure DeployParams (C L' : Type) where
  type_of_model : String
  converter_type : String
  model_parameters : C × L'
  tiling_parameters : TilingParameters

/-- `OpenVINODetectionTask.deploy`.  `serializeParams` abstracts
`json.dumps(parameters, ...)`; `pyFiles` are the `python/...` archive entries
(the walked `model_wrappers` sources, requirements.txt, LICENSE, README.md and
demo.py).  The zip archive is its entry list, stored in
`output_model.exportable_code`. -/
def deploy {β H C L L' : Type} (ext : Ext β H C L L')
    (serializeParams : DeployParams C L' → β)
    (pyFiles : List (String × β))
    (t : TaskState β H C L) (output_model : ModelEntity β) :
    ModelEntity β × Option TaskError :=
  match t.inferencer with
  | none => (output_model, some .unboundLocal)
  | some inf =>
    let parameters : DeployParams C L' :=
      ⟨inf.modelName, taskTypeName t.task_type,
        (inf.configuration, ext.labelSchemaMapperForward t.label_schema),
        t.config.tiling_parameters⟩
    match t.model with
    | none => (output_model, some (.valueError "Deploy failed, model is None"))
    | some m =>
      match m.get_data "openvino.xml", m.get_data "openvino.bin" with
      | some xml, some bin =>
        if t.config.tiling_parameters.enable_tiling &&
            t.config.tiling_parameters.enable_tile_classifier then
          match m.get_data "tile_classifier.xml", m.get_data "tile_classifier.bin" with
          | some cxml, some cbin =>
            let z := [("model/model.xml", xml), ("model/model.bin", bin),
              ("model/tile_classifier.xml", cxml),
              ("model/tile_classifier.bin", cbin),
              ("model/config.json", serializeParams parameters)] ++ pyFiles
            ({ output_model with exportable_code := some z }, none)
          | _, _ => (output_model, some (.keyError "tile_classifier"))
        else
          let z := [("model/model.xml", xml), ("model/model.bin", bin),
            ("model/config.json", serializeParams parameters)] ++ pyFiles
          ({ output_model with exportable_code := some z }, none)
      | _, _ => (output_model, some (.keyError "openvino"))

/-- C4: Deployment zip packaging.  `deploy` raises ValueError when the task's
model is None; otherwise it stores in `output_model.exportable_code` a zip
whose entries include `model/model.xml` and `model/model.bin` with the model's
`openvino.xml`/`openvino.bin` data, `model/config.json` with the serialized
parameters, and `model/tile_classifier.{xml,bin}` exactly when both
`enable_tiling` and `enable_tile_classifier` are set. -/
theorem C4_deploy_zip {β H C L L' : Type} (ext : Ext β H C L L')
    (serializeParams : DeployParams C L' → β)
    (pyFiles : List (String × β))
    (t : TaskState β H C L) (output_model : ModelEntity β)
    (inf : Inferencer β C) (m : ModelEntity β) (xml bin cxml cbin : β)
    (hinf : t.inferencer = some inf)
    (hm : t.model = some m)
    (hxml : m.get_data "openvino.xml" = some xml)
    (hbin : m.get_data "openvino.bin" = some bin)
    (hcls : (t.config.tiling_parameters.enable_tiling &&
        t.config.tiling_parameters.enable_tile_classifier) = true →
      m.get_data "tile_classifier.xml" = some cxml ∧
      m.get_data "tile_classifier.bin" = some cbin)
    (hpy : ∀ f ∈ pyFiles, f.1 ≠ "model/tile_classifier.xml" ∧
      f.1 ≠ "model/tile_classifier.bin") :
    ((deploy ext serializeParams pyFiles t output_model).2 = none)
    ∧ (∀ t0 : TaskState β H C L, t0.inferencer = some inf → t0.model = none →
        deploy ext serializeParams pyFiles t0 output_model =
          (output_model, some (.valueError "Deploy failed, model is None")))
    ∧ (∃ z : List (String × β),
        (deploy ext serializeParams pyFiles t output_model).1.exportable_code = some z
        ∧ ("model/model.xml", xml) ∈ z
        ∧ ("model/model.bin", bin) ∈ z
        ∧ ("model/config.json", serializeParams
            ⟨inf.modelName, taskTypeName t.task_type,
              (inf.configuration, ext.labelSchemaMapperForward t.label_schema),
              t.config.tiling_parameters⟩) ∈ z
        ∧ ((∃ x : β, ("model/tile_classifier.xml", x) ∈ z) ↔
            (t.config.tiling_parameters.enable_tiling = true ∧
             t.config.tiling_parameters.enable_tile_classifier = true))
        ∧ ((∃ x : β, ("model/tile_classifier.bin", x) ∈ z) ↔
            (t.config.tiling_parameters.enable_tiling = true ∧
             t.config.tiling_parameters.enable_tile_classifier = true))) := by
  cases hflag : (t.config.tiling_parameters.enable_tiling &&
      t.config.tiling_parameters.enable_tile_classifier) with
  | true =>
    obtain ⟨hcx, hcb⟩ := hcls hflag
    have hT : t.config.tiling_parameters.enable_tiling = true ∧
        t.config.tiling_parameters.enable_tile_classifier = true := by
      rw [Bool.and_eq_true] at hflag; exact hflag
    refine ⟨?_, ?_, ?_⟩
    · simp only [deploy, hinf, hm, hxml, hbin, hflag, if_true, hcx, hcb]
    · intro t0 hinf0 hm0
      simp only [deploy, hinf0, hm0]
    · have hz : (deploy ext serializeParams pyFiles t output_model).1.exportable_code =
          some ([("model/model.xml", xml), ("model/model.bin", bin),
            ("model/tile_classifier.xml", cxml), ("model/tile_classifier.bin", cbin),
            ("model/config.json", serializeParams
              ⟨inf.modelName, taskTypeName t.task_type,
                (inf.configuration, ext.labelSchemaMapperForward t.label_schema),
                t.config.tiling_parameters⟩)] ++ pyFiles) := by
        simp only [deploy, hinf, hm, hxml, hbin, hflag, if_true, hcx, hcb]
      refine ⟨_, hz, ?_, ?_, ?_, ?_, ?_⟩
      · simp
      · simp
      · simp
      · exact ⟨fun _ => hT, fun _ => ⟨cxml, by simp⟩⟩
      · exact ⟨fun _ => hT, fun _ => ⟨cbin, by simp⟩⟩
  | false =>
    refine ⟨?_, ?_, ?_⟩
    · simp only [deploy, hinf, hm, hxml, hbin, hflag, Bool.false_eq_true, if_false]
    · intro t0 hinf0 hm0
      simp only [deploy, hinf0, hm0]
    · have hz : (deploy ext serializeParams pyFiles t output_model).1.exportable_code =
          some ([("model/model.xml", xml), ("model/model.bin", bin),
            ("model/config.json", serializeParams
              ⟨inf.modelName, taskTypeName t.task_type,
                (inf.configuration, ext.labelSchemaMapperForward t.label_schema),
                t.config.tiling_parameters⟩)] ++ pyFiles) := by
        simp only [deploy, hinf, hm, hxml, hbin, hflag, Bool.false_eq_true, if_false]
      refine ⟨_, hz, ?_, ?_, ?_, ?_, ?_⟩
      · simp
      · simp
      · simp
      · constructor
        · rintro ⟨x, hx⟩
          exfalso
          rcases List.mem_append.mp hx with hx1 | hx2
          · simp only [List.mem_cons, List.not_mem_nil, or_false, Prod.mk.injEq] at hx1
            rcases hx1 with ⟨h1, _⟩ | ⟨h1, _⟩ | ⟨h1, _⟩ <;> exact absurd h1 (by decide)
          · exact (hpy _ hx2).1 rfl
        · rintro ⟨h1, h2⟩
          rw [h1, h2] at hflag
          exact absurd hflag (by decide)
      · constructor
        · rintro ⟨x, hx⟩
          exfalso
          rcases List.mem_append.mp hx with hx1 | hx2
          · simp only [List.mem_cons, List.not_mem_nil, or_false, Prod.mk.injEq] at hx1
            rcases hx1 with ⟨h1, _⟩ | ⟨h1, _⟩ | ⟨h1, _⟩ <;> exact absurd h1 (by decide)
          · exact (hpy _ hx2).2 rfl
        · rintro ⟨h1, h2⟩
          rw [h1, h2] at hflag
          exact absurd hflag (by decide)

theorem C4_deploy_zip_witness :
    (deploy
      (⟨fun v => (v : Rat), fun _ => 0, fun h _ => h, fun h => h, fun _ => 0,
        fun _ => 0, fun l => l⟩ : Ext Nat Nat Nat Nat Nat)
      (fun _ => 7) [("python/demo.py", 3)]
      ⟨TaskType.DETECTION, ⟨⟨true, true, 400, 0, 100⟩⟩, 0, 0,
        some ⟨[("openvino.xml", 1), ("openvino.bin", 2), ("tile_classifier.xml", 4),
          ("tile_classifier.bin", 5)], none, none, [], [], none⟩,
        0, some (.base ⟨"OTX_SSD", 0, 1, 2, .detection⟩)⟩
      ⟨[], none, none, [], [], none⟩).2 = none :=
  (C4_deploy_zip
    (⟨fun v => (v : Rat), fun _ => 0, fun h _ => h, fun h => h, fun _ => 0,
      fun _ => 0, fun l => l⟩ : Ext Nat Nat Nat Nat Nat)
    (fun _ => 7) [("python/demo.py", 3)]
    ⟨TaskType.DETECTION, ⟨⟨true, true, 400, 0, 100⟩⟩, 0, 0,
      some ⟨[("openvino.xml", 1), ("openvino.bin", 2), ("tile_classifier.xml", 4),
        ("tile_classifier.bin", 5)], none, none, [], [], none⟩,
      0, some (.base ⟨"OTX_SSD", 0, 1, 2, .detection⟩)⟩
    ⟨[], none, none, [], [], none⟩
    (.base ⟨"OTX_SSD", 0, 1, 2, .detection⟩)
    ⟨[("openvino.xml", 1), ("openvino.bin", 2), ("tile_classifier.xml", 4),
      ("tile_classifier.bin", 5)], none, none, [], [], none⟩
    1 2 4 5 rfl rfl (by decide) (by decide) (fun _ => ⟨by decide, by decide⟩)
    (by decide)).1

/-! ## Dataset, data loader, inference, evaluation -/

/-- `AnnotationSceneEntity`: its annotation list. -/
structure AnnotationScene (Ann : Type) where
  annotations : List Ann
  deriving DecidableEq

/-- A `DatasetItemEntity`: its image (`numpy`), annotation scene and
metadata items. -/
structure DatasetItem (Img Ann Meta : Type) where
  numpy : Img
  annotation_scene : AnnotationScene Ann
  metadata : List Meta
  deriving DecidableEq

/-- A `DatasetEntity`: its item list. -/
abbrev DatasetEntity (Img Ann Meta : Type) := List (DatasetItem Img Ann Meta)

/-- `OTXOpenVinoDataLoader`: holds the dataset and the wrapped inferencer,
of which only `pre_process` (= `model.preprocess`) is used. -/
structure OTXOpenVinoDataLoader (Img Ann Meta Inp M : Type) where
  dataset : DatasetEntity Img Ann Meta
  pre_process : Img → Inp × M

/-- `OTXOpenVinoDataLoader.__len__`. -/
def OTXOpenVinoDataLoader.length {Img Ann Meta Inp M : Type}
    (dl : OTXOpenVinoDataLoader Img Ann Meta Inp M) : Nat :=
  dl.dataset.length

/-- `OTXOpenVinoDataLoader.__getitem__`. -/
def OTXOpenVinoDataLoader.getItem {Img Ann Meta Inp M : Type}
    (dl : OTXOpenVinoDataLoader Img Ann Meta Inp M) (index : Nat)
    (h : index < dl.dataset.length) : (Nat × AnnotationScene Ann) × Inp × M :=
  let image := (dl.dataset.get ⟨index, h⟩).numpy
  let annotation := (dl.dataset.get ⟨index, h⟩).annotation_scene
  let pm := dl.pre_process image
  ((index, annotation), pm.1, pm.2)

/-- C7: Dataset-iteration adapter invariant.  The loader's length equals the
dataset's, `__getitem__(i)` returns `((i, annotation scene of item i),
preprocessed inputs of item i's image, preprocessing metadata)`, and the
dataset is not modified. -/
theorem C7_dataloader_invariant {Img Ann Meta Inp M : Type}
    (dataset : DatasetEntity Img Ann Meta) (pp : Img → Inp × M) :
    (OTXOpenVinoDataLoader.mk dataset pp).length = dataset.length
    ∧ (∀ (i : Nat) (h : i < dataset.length),
        (OTXOpenVinoDataLoader.mk dataset pp).getItem i h =
          ((i, (dataset.get ⟨i, h⟩).annotation_scene),
            (pp (dataset.get ⟨i, h⟩).numpy).1, (pp (dataset.get ⟨i, h⟩).numpy).2))
    ∧ (OTXOpenVinoDataLoader.mk dataset pp).dataset = dataset :=
  ⟨rfl, fun _ _ => rfl, rfl⟩

theorem C7_dataloader_invariant_witness :
    (OTXOpenVinoDataLoader.mk [⟨(1 : Nat), ⟨[(2 : Nat)]⟩, ([] : List Nat)⟩]
      (fun im => (im + 1, im + 2))).length = 1
    ∧ (OTXOpenVinoDataLoader.mk [⟨(1 : Nat), ⟨[(2 : Nat)]⟩, ([] : List Nat)⟩]
      (fun im => (im + 1, im + 2))).getItem 0 (by decide) = ((0, ⟨[2]⟩), 2, 3) :=
  ⟨(C7_dataloader_invariant [⟨1, ⟨[2]⟩, []⟩] (fun im => (im + 1, im + 2))).1,
    ((C7_dataloader_invariant [⟨1, ⟨[2]⟩, []⟩] (fun im => (im + 1, im + 2))).2.1 0
      (by decide)).trans (by decide)⟩

/-- `InferenceParameters` fields read by `infer`. -/
structure InferenceParameters where
  is_evaluation : Bool
  process_saliency_maps : Bool
  explain_predicted_classes : Bool
  deriving DecidableEq

/-- One iteration of the `for i, dataset_item in enumerate(dataset, 1)` loop
of `OpenVINODetectionTask.infer`: predicted annotations are appended to the
item; a `representation_vector` metadata item is appended when the feature
vector is not None; `add_saliency_maps_to_dataset_item` (`otx.api`, outside
src/, its appended items abstracted by `saliencyMeta`) runs when
`add_saliency_map` is set and the saliency map is not None.  `predict`
abstracts `self.inferencer.predict` and `mkRepVector` the `TensorEntity`
built from the feature vector. -/
def inferItem {Img Ann Meta FV SM : Type}
    (predict : Img → List Ann × Option FV × Option SM)
    (mkRepVector : FV → Meta) (saliencyMeta : SM → List Meta)
    (add_saliency_map : Bool) (item : DatasetItem Img Ann Meta) :
    DatasetItem Img Ann Meta :=
  let r := predict item.numpy
  let item1 := { item with
    annotation_scene := ⟨item.annotation_scene.annotations ++ r.1⟩ }
  let item2 := match r.2.1 with
    | some v => { item1 with metadata := item1.metadata ++ [mkRepVector v] }
    | none => item1
  if add_saliency_map then
    match r.2.2 with
    | some s => { item2 with metadata := item2.metadata ++ saliencyMeta s }
    | none => item2
  else item2

/-- `OpenVINODetectionTask.infer`: per-item prediction over the dataset,
returning the (mutated) dataset; `add_saliency_map` is
`not inference_parameters.is_evaluation`, or True when no parameters are
given. -/
def infer {Img Ann Meta FV SM : Type}
    (predict : Img → List Ann × Option FV × Option SM)
    (mkRepVector : FV → Meta) (saliencyMeta : SM → List Meta)
    (inference_parameters : Option InferenceParameters)
    (dataset : DatasetEntity Img Ann Meta) : DatasetEntity Img Ann Meta :=
  let add_saliency_map := match inference_parameters with
    | some p => !p.is_evaluation
    | none => true
  dataset.map (inferItem predict mkRepVector saliencyMeta add_saliency_map)

/-- C8 counterexample: with `inference_parameters.is_evaluation = True` the
saliency map returned by the inferencer (`some 9`) is available and its
metadata items (`[9]`) are non-empty, yet `infer` appends only the
representation vector: the claim's "when a feature vector or saliency map is
available, appends metadata items (a representation_vector tensor and
saliency maps)" fails at this input. -/
theorem C8_infer_frame_counterexample :
    (infer (fun _ => (([5] : List Nat), (some 7 : Option Nat), (some 9 : Option Nat)))
        (fun v => v) (fun s => [s])
        (some ⟨true, false, true⟩) [⟨(0 : Nat), ⟨[]⟩, []⟩]).map
      (fun it => it.metadata) = [[7]]
    ∧ ((fun _ => (([5] : List Nat), (some 7 : Option Nat), (some 9 : Option Nat)))
        (0 : Nat)).2.2 = some 9
    ∧ ((fun s => [s]) (9 : Nat)) ≠ []
    ∧ ¬((9 : Nat) ∈ [(7 : Nat)]) := by
  decide

/-- C8 (amended): Inference frame property.  `infer` keeps the dataset's
length and each item's image; it never removes or replaces existing
annotations or metadata, only appends: each item's annotations become the old
annotations followed by the predictions, and its metadata gains a
representation_vector item when a feature vector is available, followed by
the saliency metadata items when a saliency map is available and
`add_saliency_map` holds (no parameters, or `is_evaluation` false). -/
theorem C8_infer_frame {Img Ann Meta FV SM : Type}
    (predict : Img → List Ann × Option FV × Option SM)
    (mkRepVector : FV → Meta) (saliencyMeta : SM → List Meta)
    (inference_parameters : Option InferenceParameters)
    (dataset : DatasetEntity Img Ann Meta) :
    (infer predict mkRepVector saliencyMeta inference_parameters dataset).length =
      dataset.length
    ∧ (∀ (i : Nat) (item : DatasetItem Img Ann Meta), dataset.get? i = some item →
        ∃ item' : DatasetItem Img Ann Meta,
          (infer predict mkRepVector saliencyMeta inference_parameters
            dataset).get? i = some item'
          ∧ item'.numpy = item.numpy
          ∧ item'.annotation_scene.annotations =
              item.annotation_scene.annotations ++ (predict item.numpy).1
          ∧ item'.metadata = item.metadata
              ++ (match (predict item.numpy).2.1 with
                  | some v => [mkRepVector v]
                  | none => [])
              ++ (if (match inference_parameters with
                      | some p => !p.is_evaluation
                      | none => true) = true then
                    match (predict item.numpy).2.2 with
                    | some s => saliencyMeta s
                    | none => []
                  else [])) := by
  constructor
  · simp [infer]
  · intro i item hi
    refine ⟨inferItem predict mkRepVector saliencyMeta
      (match inference_parameters with | some p => !p.is_evaluation | none => true)
      item, ?_, ?_, ?_, ?_⟩
    · simp only [infer, List.get?_map, hi]
      rfl
    · cases hf : (predict item.numpy).2.1 <;>
        cases hs : (predict item.numpy).2.2 <;>
        cases hb : (match inference_parameters with
          | some p => !p.is_evaluation | none => true) <;>
        simp [inferItem, hf, hs, hb]
    · cases hf : (predict item.numpy).2.1 <;>
        cases hs : (predict item.numpy).2.2 <;>
        cases hb : (match inference_parameters with
          | some p => !p.is_evaluation | none => true) <;>
        simp [inferItem, hf, hs, hb]
    · cases hf : (predict item.numpy).2.1 <;>
        cases hs : (predict item.numpy).2.2 <;>
        cases hb : (match inference_parameters with
          | some p => !p.is_evaluation | none => true) <;>
        simp [inferItem, hf, hs, hb]

theorem C8_infer_frame_witness :
    (infer (fun _ => (([5] : List Nat), (some 7 : Option Nat), (some 9 : Option Nat)))
      (fun v => v) (fun s => [s]) none [⟨(0 : Nat), ⟨[]⟩, []⟩]).get? 0 =
      some ⟨0, ⟨[5]⟩, [7, 9]⟩ := by
  have h := (C8_infer_frame
    (fun _ => (([5] : List Nat), (some 7 : Option Nat), (some 9 : Option Nat)))
    (fun v => v) (fun s => [s]) none [⟨(0 : Nat), ⟨[]⟩, []⟩]).2 0 ⟨0, ⟨[]⟩, []⟩ rfl
  obtain ⟨item', h1, h2, h3, h4⟩ := h
  rw [h1]
  congr 1
  obtain ⟨n, as, md⟩ := item'
  obtain ⟨asl⟩ := as
  simp only at h2 h3 h4
  simp_all

/-- `ResultSetEntity`: its payload and performance attribute. -/
structure ResultSetEntity (R P : Type) where
  results : R
  performance : Option P
  deriving DecidableEq

/-- `OpenVINODetectionTask.evaluate`: ignores `evaluation_metric` (a non-None
value is only logged) and stores the F-measure performance on the result set.
`computeFMeasure` abstracts
`MetricsHelper.compute_f_measure(output_resultset).get_performance()`
(`otx.api`, outside src/). -/
def evaluate {R P : Type} (computeFMeasure : ResultSetEntity R P → P)
    (output_resultset : ResultSetEntity R P) (evaluation_metric : Option String) :
    ResultSetEntity R P :=
  { output_resultset with performance := some (computeFMeasure output_resultset) }

/-- C9: Evaluation metric fixed.  For every result set and every value of
`evaluation_metric` (including non-None), `evaluate` sets the performance to
the F-measure result; the argument never changes the outcome and never causes
an error. -/
theorem C9_evaluate_fixed_metric {R P : Type}
    (computeFMeasure : ResultSetEntity R P → P) (rs : ResultSetEntity R P)
    (evaluation_metric : Option String) :
    evaluate computeFMeasure rs evaluation_metric =
      { rs with performance := some (computeFMeasure rs) }
    ∧ evaluate computeFMeasure rs evaluation_metric =
      evaluate computeFMeasure rs none :=
  ⟨rfl, rfl⟩
